import Mathlib

/-!
# SDFGen — verification of the spec against `src/main.cpp`

Shallow embedding of the SDFGen driver (`main.cpp`): OBJ line parsing
(vertex and face lines), bounding-box accumulation, padding and grid
derivation, the call into the distance-field builder, and the serialized
output record.  C++ `float` values are embedded as exact rationals (`ℚ`);
C++ `int` is `ℤ` with the `operator>>` clamping behaviour made explicit;
C++ `unsigned int` components are `ℕ` reduced mod 2^32 at the conversion
site.  Fallible steps return `Except`.

The files `makelevelset3.cpp`, `array3.h` and `vec.h` of the repository are
not under `src/`; the definitions taken from them (`make_level_set3`,
`Array3f`, `update_minmax`) are modelled from the spec and say so in their
doc comments.
-/

namespace SDFGen

/-- Largest finite IEEE-754 single-precision value, `FLT_MAX = 2^128 - 2^104`,
used by `main.cpp` (lines 56-57) as the inverted bounding-box sentinel. -/
def fltMax : ℚ := 2 ^ 128 - 2 ^ 104

/-- Value of `INT_MAX` for the 32-bit `int` read by `wstream >> n`. -/
def intMaxC : ℤ := 2 ^ 31 - 1

/-- Value of `INT_MIN` for the 32-bit `int` read by `wstream >> n`. -/
def intMinC : ℤ := -(2 ^ 31)

/-- C++ truncation toward zero of a real (rational) value to an integer,
as performed by the `float` → integer conversion in `Vec3ui(...)`. -/
def ratTrunc (q : ℚ) : ℤ := Int.tdiv q.num (q.den : ℤ)

/-- The `float` → `unsigned int` component conversion used to build the grid
dimensions (`main.cpp` line 119).  Out-of-range values are undefined
behaviour in C++; the model totalizes them by clamping negatives to 0. -/
def toDim (q : ℚ) : ℕ := (ratTrunc q).toNat

/-- The `int` → `unsigned int` conversion applied to each component when a
`Vec3ui` is constructed from `int` expressions (`main.cpp` lines 98-101):
reduction modulo 2^32. -/
def u32 (n : ℤ) : ℕ := (n % (2 ^ 32 : ℤ)).toNat

/-- A 3D float vector (`Vec3f` from `vec.h`), embedded with exact rational
components. -/
structure Vec3f where
  x : ℚ
  y : ℚ
  z : ℚ
deriving DecidableEq

/-- A triple of `unsigned int` vertex indices (`Vec3ui`). -/
structure Vec3ui where
  a : ℕ
  b : ℕ
  c : ℕ
deriving DecidableEq

/-- Construction `Vec3ui(e1, e2, e3)` from three `int` expressions: each component
undergoes the `int` → `unsigned int` conversion. -/
def mkVec3ui (n1 n2 n3 : ℤ) : Vec3ui := ⟨u32 n1, u32 n2, u32 n3⟩

/-- Modelled from the spec: `update_minmax` (declared in `vec.h`, which is
not under `src/`).  Per the spec's Mesh Ingestion contract it grows the
axis-aligned bounding box to include the new point: componentwise minimum
into `min_box` and componentwise maximum into `max_box`. -/
def update_minmax (p minB maxB : Vec3f) : Vec3f × Vec3f :=
  (⟨min minB.x p.x, min minB.y p.y, min minB.z p.z⟩,
   ⟨max maxB.x p.x, max maxB.y p.y, max maxB.z p.z⟩)

/-- The initial inverted bounding-box minimum (`main.cpp` line 56). -/
def vecFltMax : Vec3f := ⟨fltMax, fltMax, fltMax⟩

/-- The initial inverted bounding-box maximum (`main.cpp` line 57). -/
def vecNegFltMax : Vec3f := ⟨-fltMax, -fltMax, -fltMax⟩

/-- Numeric value of a list of decimal digit characters (most significant
first). -/
def digitsToNat (cs : List Char) : ℕ :=
  cs.foldl (fun a c => 10 * a + (c.toNat - 48)) 0

/-- The value stored by a C++11 `operator>>` into an `int` when the digit
string overflows: clamped to `INT_MAX` / `INT_MIN`. -/
def clampInt (n : ℤ) : ℤ :=
  if n > intMaxC then intMaxC else if n < intMinC then intMinC else n

/-- Character-list worker for `parseLeadingInt`. -/
def parseLeadingIntL : List Char → ℤ
  | [] => 0
  | chr :: cs =>
    if chr = '-' then
      let ds := cs.takeWhile Char.isDigit
      if ds = [] then 0 else clampInt (-(digitsToNat ds : ℤ))
    else if chr = '+' then
      let ds := cs.takeWhile Char.isDigit
      if ds = [] then 0 else clampInt (digitsToNat ds : ℤ)
    else
      let ds := (chr :: cs).takeWhile Char.isDigit
      if ds = [] then 0 else clampInt (digitsToNat ds : ℤ)

/-- Extraction `wstream >> n` on a face-line token (`main.cpp` lines 88-90): parse an
optional sign followed by the longest leading run of decimal digits and stop
at the first non-digit (so `"7/2/3"` yields 7).  On a failed extraction
(no digits) C++11 stores 0; on overflow it clamps to the `int` range. -/
def parseLeadingInt (w : String) : ℤ :=
  parseLeadingIntL w.data

/-- Store into a fixed-size buffer with an explicit bounds check: the total
rendering of the raw array store `f[idx] = n` on the 4-element buffer
`int f[4]` (`main.cpp` lines 84, 91).  `none` is an out-of-bounds write. -/
def setAt (l : List ℤ) (i : ℕ) (v : ℤ) : Option (List ℤ) :=
  if i < l.length then some (l.set i v) else none

/-- Errors escaping the face-line token loop: `oobStore` is the
out-of-bounds store of a fifth index into `int f[4]`; `tooMany` is the
`idx > 4` check that prints `only tris, quads supported` and exits. -/
inductive FaceErr where
  | oobStore
  | tooMany
deriving DecidableEq

/-- The token loop of a face line (`main.cpp` lines 87-96): for each
remaining whitespace-separated token, parse its leading integer, store it at
`f[idx]`, increment `idx`, and exit with an error if `idx > 4`.  The store
happens before the count check, exactly as in the source. -/
def faceLoop : List String → List ℤ → ℕ → Except FaceErr (List ℤ × ℕ)
  | [], buf, idx => .ok (buf, idx)
  | w :: ws, buf, idx =>
    match setAt buf idx (parseLeadingInt w) with
    | none => .error .oobStore
    | some buf2 =>
      if idx + 1 > 4 then .error .tooMany else faceLoop ws buf2 (idx + 1)

/-- Parse one face line from its index tokens (the tokens after the leading
`"f"`), as `main.cpp` lines 81-102: run the token loop over the 4-element
buffer (uninitialized in C++, never read before written on any path that
reads it; modelled as zeros), then emit one triangle for 3 indices and two
triangles for 4, each index decremented by 1. -/
def parseFaceLine (ws : List String) : Except FaceErr (List Vec3ui) :=
  match faceLoop ws [0, 0, 0, 0] 0 with
  | .error e => .error e
  | .ok (buf, idx) =>
    if idx = 3 then
      .ok [mkVec3ui (buf.getD 0 0 - 1) (buf.getD 1 0 - 1) (buf.getD 2 0 - 1)]
    else if idx = 4 then
      .ok [mkVec3ui (buf.getD 0 0 - 1) (buf.getD 1 0 - 1) (buf.getD 2 0 - 1),
           mkVec3ui (buf.getD 2 0 - 1) (buf.getD 3 0 - 1) (buf.getD 0 0 - 1)]
    else
      .ok []

/-- One classified input line (`main.cpp` lines 73, 81, 104): a vertex line
`v x y z` (the three floats carried already parsed — numeric-literal lexing
by `operator>>` is out of the claims' scope), a face line with its index
tokens, or any other line (counted as ignored). -/
inductive Line where
  | vline (x y z : ℚ)
  | fline (toks : List String)
  | other
deriving DecidableEq

/-- Whether a line is a vertex line. -/
def isVline : Line → Bool
  | .vline _ _ _ => true
  | _ => false

/-- The parser state accumulated over the input lines (`main.cpp`
lines 56-70): vertex list, face list, running bounding box, ignored-line
count. -/
structure ParseState where
  verts : List Vec3f
  faces : List Vec3ui
  minB : Vec3f
  maxB : Vec3f
  ignored : ℕ
deriving DecidableEq

/-- The state before the read loop: empty lists and the inverted
sentinel bounding box. -/
def initState : ParseState := ⟨[], [], vecFltMax, vecNegFltMax, 0⟩

/-- Process one input line (`main.cpp` lines 71-107). -/
def processLine (st : ParseState) : Line → Except FaceErr ParseState
  | .vline x y z =>
    let pt : Vec3f := ⟨x, y, z⟩
    let mm := update_minmax pt st.minB st.maxB
    .ok { st with verts := st.verts ++ [pt], minB := mm.1, maxB := mm.2 }
  | .fline toks =>
    match parseFaceLine toks with
    | .error e => .error e
    | .ok fs => .ok { st with faces := st.faces ++ fs }
  | .other => .ok { st with ignored := st.ignored + 1 }

/-- Run the read loop from a given state. -/
def runParseFrom (st : ParseState) : List Line → Except FaceErr ParseState
  | [] => .ok st
  | l :: ls =>
    match processLine st l with
    | .error e => .error e
    | .ok st2 => runParseFrom st2 ls

/-- Run the whole read loop of `main.cpp` (lines 71-107) from the initial
state. -/
def runParse (ls : List Line) : Except FaceErr ParseState :=
  runParseFrom initState ls

/-- The padding clamp of `main.cpp` line 54: `if(padding < 1) padding = 1;`. -/
def effPadding (p : ℤ) : ℤ := if p < 1 then 1 else p

/-- The grid description produced by `main.cpp` lines 115-119: the padded
box corners and the integer dimensions `sizes`. -/
structure GridSpec where
  origin : Vec3f
  corner : Vec3f
  ni : ℕ
  nj : ℕ
  nk : ℕ
deriving DecidableEq

/-- Lines 115-119 of `main.cpp`: clamp the padding, expand the bounding box by
`padding*dx` on each side, and take the componentwise truncating conversion
of `(max_box - min_box)/dx` as the grid dimensions. -/
def deriveGrid (minB maxB : Vec3f) (dx : ℚ) (padding : ℤ) : GridSpec :=
  let p : ℚ := (effPadding padding : ℤ)
  let o : Vec3f := ⟨minB.x - p * dx, minB.y - p * dx, minB.z - p * dx⟩
  let c : Vec3f := ⟨maxB.x + p * dx, maxB.y + p * dx, maxB.z + p * dx⟩
  ⟨o, c, toDim ((c.x - o.x) / dx), toDim ((c.y - o.y) / dx),
    toDim ((c.z - o.z) / dx)⟩

/-- Modelled from the spec: `Array3f` (`array3.h`, not under `src/`).  Per
§3 of the spec, the distance field is a dense array of `ni·nj·nk` values in
a fixed linear order, index `i` fastest, then `j`, then `k`. -/
structure Array3f where
  ni : ℕ
  nj : ℕ
  nk : ℕ
  a : List ℚ

/-- Flatten a pointwise field into the spec's fixed linear order: entry
`i + ni*(j + nj*k)` holds the value at `(i, j, k)`, so `i` varies fastest,
then `j`, then `k`. -/
def buildField (f : ℕ → ℕ → ℕ → ℚ) (ni nj nk : ℕ) : Array3f :=
  ⟨ni, nj, nk,
    (List.range (ni * nj * nk)).map fun n =>
      f (n % ni) (n / ni % nj) (n / ni / nj)⟩

/-- The shape of the core three-phase computation (exact near-surface
distances, parity sign, sweeping): a pointwise signed value for every grid
point, as a function of the builder's inputs.  The claims under
verification never constrain the numeric distance values, so the core is
kept as a parameter rather than re-derived. -/
def Core : Type :=
  List Vec3ui → List Vec3f → Vec3f → ℚ → ℕ → ℕ → ℕ → (ℕ → ℕ → ℕ → ℚ)

/-- The precondition violation of spec §7. -/
inductive SDFErr where
  | invalidGridSpec
deriving DecidableEq

/-- Modelled from the spec: `make_level_set3` (`makelevelset3.cpp`, not
under `src/`).  Per spec §7, when `dx ≤ 0` or any of `ni`/`nj`/`nk` is not
positive the core refuses computation and signals a precondition violation;
otherwise it produces the dense `ni·nj·nk` field in the §3 linear order,
its pointwise values given by the three-phase computation `core`. -/
def make_level_set3 (core : Core) (faces : List Vec3ui) (verts : List Vec3f)
    (origin : Vec3f) (dx : ℚ) (ni nj nk : ℕ) : Except SDFErr Array3f :=
  if dx ≤ 0 ∨ ni = 0 ∨ nj = 0 ∨ nk = 0 then .error .invalidGridSpec
  else .ok (buildField (core faces verts origin dx ni nj nk) ni nj nk)

/-- The serialized output record (`main.cpp` lines 131-140): the version
tag, the grid dimensions, the grid origin (the padded `min_box`), the
spacing `dx`, and the flat field array, written in that order. -/
structure SDFRecord where
  version : ℤ
  ni : ℕ
  nj : ℕ
  nk : ℕ
  origin : Vec3f
  dx : ℚ
  values : List ℚ

/-- Lines 131-140 of `main.cpp`: build the output record from the computed
field, the padded `min_box` and `dx`. -/
def writeRecord (phi : Array3f) (minB : Vec3f) (dx : ℚ) : SDFRecord :=
  ⟨1, phi.ni, phi.nj, phi.nk, minB, dx, phi.a⟩

/-- A run-level error: either the face parser exited the program, or the
builder refused its grid. -/
inductive RunErr where
  | parse (e : FaceErr)
  | builder (e : SDFErr)
deriving DecidableEq

/-- The whole pipeline of `main.cpp` as a function: read the lines, derive
the grid, build the field, serialize. -/
def runSDFGen (core : Core) (ls : List Line) (dx : ℚ) (padding : ℤ) :
    Except RunErr SDFRecord :=
  match runParse ls with
  | .error e => .error (.parse e)
  | .ok st =>
    let g := deriveGrid st.minB st.maxB dx padding
    match make_level_set3 core st.faces st.verts g.origin dx g.ni g.nj g.nk with
    | .error e => .error (.builder e)
    | .ok phi => .ok (writeRecord phi g.origin dx)

/-- The pipeline of `main.cpp` as a big-step relation between an input
(lines, `dx`, `padding`) and an observable outcome, one constructor per
control path of `main`. -/
inductive RunsTo (core : Core) (ls : List Line) (dx : ℚ) (padding : ℤ) :
    Except RunErr SDFRecord → Prop where
  | parseFail (e : FaceErr) :
      runParse ls = .error e →
      RunsTo core ls dx padding (.error (.parse e))
  | builderFail (st : ParseState) (e : SDFErr) :
      runParse ls = .ok st →
      make_level_set3 core st.faces st.verts
        (deriveGrid st.minB st.maxB dx padding).origin dx
        (deriveGrid st.minB st.maxB dx padding).ni
        (deriveGrid st.minB st.maxB dx padding).nj
        (deriveGrid st.minB st.maxB dx padding).nk = .error e →
      RunsTo core ls dx padding (.error (.builder e))
  | success (st : ParseState) (phi : Array3f) :
      runParse ls = .ok st →
      make_level_set3 core st.faces st.verts
        (deriveGrid st.minB st.maxB dx padding).origin dx
        (deriveGrid st.minB st.maxB dx padding).ni
        (deriveGrid st.minB st.maxB dx padding).nj
        (deriveGrid st.minB st.maxB dx padding).nk = .ok phi →
      RunsTo core ls dx padding
        (.ok (writeRecord phi (deriveGrid st.minB st.maxB dx padding).origin dx))

/-! ## Helper definitions for stating the claims -/

/-- Predicate: `m` is the minimum of the list `l`: it occurs in `l` and bounds it
below. -/
def isMinOf (m : ℚ) (l : List ℚ) : Prop := m ∈ l ∧ ∀ q ∈ l, m ≤ q

/-- Predicate: `m` is the maximum of the list `l`: it occurs in `l` and bounds it
above. -/
def isMaxOf (m : ℚ) (l : List ℚ) : Prop := m ∈ l ∧ ∀ q ∈ l, q ≤ m

/-- All three components are representable finite `float` values. -/
def vecInFloatRange (v : Vec3f) : Bool :=
  decide (-fltMax ≤ v.x ∧ v.x ≤ fltMax ∧ -fltMax ≤ v.y ∧ v.y ≤ fltMax ∧
    -fltMax ≤ v.z ∧ v.z ≤ fltMax)

/-- A zero-valued core, used to instantiate universally quantified
statements at a concrete input. -/
def coreZero : Core := fun _ _ _ _ _ _ _ _ _ _ => 0

/-! ## Helper lemmas -/

theorem foldl_min_le_init (l : List ℚ) : ∀ a : ℚ, l.foldl min a ≤ a := by
  induction l with
  | nil => intro a; exact le_refl a
  | cons c cs ih =>
    intro a
    exact le_trans (ih (min a c)) (min_le_left a c)

theorem foldl_min_le_mem (l : List ℚ) :
    ∀ a : ℚ, ∀ b ∈ l, l.foldl min a ≤ b := by
  induction l with
  | nil => intro a b hb; cases hb
  | cons c cs ih =>
    intro a b hb
    rcases List.mem_cons.mp hb with hb | hb
    · subst hb
      exact le_trans (foldl_min_le_init cs (min a b)) (min_le_right a b)
    · exact ih (min a c) b hb

theorem foldl_min_eq_or_mem (l : List ℚ) :
    ∀ a : ℚ, l.foldl min a = a ∨ l.foldl min a ∈ l := by
  induction l with
  | nil => intro a; exact Or.inl rfl
  | cons c cs ih =>
    intro a
    rcases ih (min a c) with h | h
    · rcases min_choice a c with hm | hm
      · exact Or.inl (by rw [List.foldl_cons, h, hm])
      · exact Or.inr (by rw [List.foldl_cons, h, hm]; exact List.mem_cons_self c cs)
    · exact Or.inr (List.mem_cons_of_mem c h)

theorem foldl_max_init_le (l : List ℚ) : ∀ a : ℚ, a ≤ l.foldl max a := by
  induction l with
  | nil => intro a; exact le_refl a
  | cons c cs ih =>
    intro a
    exact le_trans (le_max_left a c) (ih (max a c))

theorem foldl_max_mem_le (l : List ℚ) :
    ∀ a : ℚ, ∀ b ∈ l, b ≤ l.foldl max a := by
  induction l with
  | nil => intro a b hb; cases hb
  | cons c cs ih =>
    intro a b hb
    rcases List.mem_cons.mp hb with hb | hb
    · subst hb
      exact le_trans (le_max_right a b) (foldl_max_init_le cs (max a b))
    · exact ih (max a c) b hb

theorem foldl_max_eq_or_mem (l : List ℚ) :
    ∀ a : ℚ, l.foldl max a = a ∨ l.foldl max a ∈ l := by
  induction l with
  | nil => intro a; exact Or.inl rfl
  | cons c cs ih =>
    intro a
    rcases ih (max a c) with h | h
    · rcases max_choice a c with hm | hm
      · exact Or.inl (by rw [List.foldl_cons, h, hm])
      · exact Or.inr (by rw [List.foldl_cons, h, hm]; exact List.mem_cons_self c cs)
    · exact Or.inr (List.mem_cons_of_mem c h)

theorem sentinel_foldl_isMin (a₀ : ℚ) (c : ℚ) (cs : List ℚ)
    (hle : ∀ q ∈ c :: cs, q ≤ a₀) :
    isMinOf ((c :: cs).foldl min a₀) (c :: cs) := by
  have hca : min a₀ c = c :=
    min_eq_right (hle c (List.mem_cons_self c cs))
  have hfold : (c :: cs).foldl min a₀ = cs.foldl min c := by
    rw [List.foldl_cons, hca]
  constructor
  · rw [hfold]
    rcases foldl_min_eq_or_mem cs c with h | h
    · rw [h]; exact List.mem_cons_self c cs
    · exact List.mem_cons_of_mem c h
  · intro q hq
    rcases List.mem_cons.mp hq with hq | hq
    · subst hq; rw [hfold]; exact foldl_min_le_init cs q
    · rw [hfold]; exact foldl_min_le_mem cs c q hq

theorem sentinel_foldl_isMax (a₀ : ℚ) (c : ℚ) (cs : List ℚ)
    (hle : ∀ q ∈ c :: cs, a₀ ≤ q) :
    isMaxOf ((c :: cs).foldl max a₀) (c :: cs) := by
  have hca : max a₀ c = c :=
    max_eq_right (hle c (List.mem_cons_self c cs))
  have hfold : (c :: cs).foldl max a₀ = cs.foldl max c := by
    rw [List.foldl_cons, hca]
  constructor
  · rw [hfold]
    rcases foldl_max_eq_or_mem cs c with h | h
    · rw [h]; exact List.mem_cons_self c cs
    · exact List.mem_cons_of_mem c h
  · intro q hq
    rcases List.mem_cons.mp hq with hq | hq
    · subst hq; rw [hfold]; exact foldl_max_init_le cs q
    · rw [hfold]; exact foldl_max_mem_le cs c q hq

/-- The bounding-box accumulator invariant of the read loop: each box
component is the fold of `min`/`max` over the collected vertex coordinates,
seeded with the inverted sentinel. -/
def bboxInv (st : ParseState) : Prop :=
  st.minB.x = (st.verts.map Vec3f.x).foldl min fltMax ∧
  st.minB.y = (st.verts.map Vec3f.y).foldl min fltMax ∧
  st.minB.z = (st.verts.map Vec3f.z).foldl min fltMax ∧
  st.maxB.x = (st.verts.map Vec3f.x).foldl max (-fltMax) ∧
  st.maxB.y = (st.verts.map Vec3f.y).foldl max (-fltMax) ∧
  st.maxB.z = (st.verts.map Vec3f.z).foldl max (-fltMax)

theorem bboxInv_init : bboxInv initState := by
  refine ⟨rfl, rfl, rfl, rfl, rfl, rfl⟩

theorem processLine_bboxInv {st st' : ParseState} {l : Line}
    (hinv : bboxInv st) (h : processLine st l = .ok st') : bboxInv st' := by
  obtain ⟨h1, h2, h3, h4, h5, h6⟩ := hinv
  cases l with
  | vline x y z =>
    simp only [processLine, Except.ok.injEq] at h
    subst h
    refine ⟨?_, ?_, ?_, ?_, ?_, ?_⟩ <;>
      simp [update_minmax, List.foldl_append, h1, h2, h3, h4, h5, h6]
  | fline toks =>
    simp only [processLine] at h
    cases hp : parseFaceLine toks with
    | error e => rw [hp] at h; cases h
    | ok fs =>
      rw [hp] at h
      simp only [Except.ok.injEq] at h
      subst h
      exact ⟨h1, h2, h3, h4, h5, h6⟩
  | other =>
    simp only [processLine, Except.ok.injEq] at h
    subst h
    exact ⟨h1, h2, h3, h4, h5, h6⟩

theorem runParseFrom_bboxInv {ls : List Line} :
    ∀ {st st' : ParseState}, bboxInv st → runParseFrom st ls = .ok st' →
      bboxInv st' := by
  induction ls with
  | nil =>
    intro st st' hinv h
    simp only [runParseFrom, Except.ok.injEq] at h
    subst h; exact hinv
  | cons l ls ih =>
    intro st st' hinv h
    simp only [runParseFrom] at h
    cases hp : processLine st l with
    | error e => rw [hp] at h; cases h
    | ok st2 =>
      rw [hp] at h
      exact ih (processLine_bboxInv hinv hp) h

theorem runParse_bboxInv {ls : List Line} {st : ParseState}
    (h : runParse ls = .ok st) : bboxInv st :=
  runParseFrom_bboxInv bboxInv_init h

theorem runParseFrom_noVline {ls : List Line} :
    ∀ {st st' : ParseState}, (∀ l ∈ ls, isVline l = false) →
      runParseFrom st ls = .ok st' →
      st'.verts = st.verts ∧ st'.minB = st.minB ∧ st'.maxB = st.maxB := by
  induction ls with
  | nil =>
    intro st st' _ h
    simp only [runParseFrom, Except.ok.injEq] at h
    subst h; exact ⟨rfl, rfl, rfl⟩
  | cons l ls ih =>
    intro st st' hnv h
    simp only [runParseFrom] at h
    cases hp : processLine st l with
    | error e => rw [hp] at h; cases h
    | ok st2 =>
      rw [hp] at h
      have hmid : st2.verts = st.verts ∧ st2.minB = st.minB ∧
          st2.maxB = st.maxB := by
        cases l with
        | vline x y z =>
          have := hnv _ (List.mem_cons_self _ _)
          simp [isVline] at this
        | fline toks =>
          simp only [processLine] at hp
          cases hq : parseFaceLine toks with
          | error e => rw [hq] at hp; cases hp
          | ok fs =>
            rw [hq] at hp
            simp only [Except.ok.injEq] at hp
            subst hp; exact ⟨rfl, rfl, rfl⟩
        | other =>
          simp only [processLine, Except.ok.injEq] at hp
          subst hp; exact ⟨rfl, rfl, rfl⟩
      have hrest := ih (fun l hl => hnv l (List.mem_cons_of_mem _ hl)) h
      exact ⟨hmid.1 ▸ hrest.1, hmid.2.1 ▸ hrest.2.1, hmid.2.2 ▸ hrest.2.2⟩

theorem ratTrunc_nonneg {q : ℚ} (h : 0 ≤ q) : 0 ≤ ratTrunc q :=
  Int.tdiv_nonneg (Rat.num_nonneg.mpr h) (Int.ofNat_nonneg _)

theorem clampInt_bounds (n : ℤ) :
    intMinC ≤ clampInt n ∧ clampInt n ≤ intMaxC := by
  unfold clampInt intMinC intMaxC
  split <;> [skip; split] <;> omega

theorem parseLeadingIntL_bounds (cs0 : List Char) :
    intMinC ≤ parseLeadingIntL cs0 ∧ parseLeadingIntL cs0 ≤ intMaxC := by
  unfold parseLeadingIntL
  cases cs0 with
  | nil =>
    exact ⟨by decide, by decide⟩
  | cons chr cs =>
    simp only
    split
    · split
      · exact ⟨by decide, by decide⟩
      · exact clampInt_bounds _
    · split
      · split
        · exact ⟨by decide, by decide⟩
        · exact clampInt_bounds _
      · split
        · exact ⟨by decide, by decide⟩
        · exact clampInt_bounds _

theorem parseLeadingInt_bounds (w : String) :
    intMinC ≤ parseLeadingInt w ∧ parseLeadingInt w ≤ intMaxC :=
  parseLeadingIntL_bounds w.data

theorem takeWhile_of_all (p : Char → Bool) :
    ∀ l : List Char, (∀ c ∈ l, p c = true) → l.takeWhile p = l := by
  intro l
  induction l with
  | nil => intro _; rfl
  | cons c cs ih =>
    intro h
    simp [List.takeWhile_cons, h c (List.mem_cons_self c cs),
      ih (fun d hd => h d (List.mem_cons_of_mem c hd))]

theorem takeWhile_of_all_append (p : Char → Bool) (x : Char) (r : List Char)
    (hx : p x = false) :
    ∀ l : List Char, (∀ c ∈ l, p c = true) →
      (l ++ x :: r).takeWhile p = l := by
  intro l
  induction l with
  | nil =>
    intro _
    simp [List.takeWhile_cons, hx]
  | cons c cs ih =>
    intro h
    simp [List.cons_append, List.takeWhile_cons,
      h c (List.mem_cons_self c cs),
      ih (fun d hd => h d (List.mem_cons_of_mem c hd))]

theorem trip_index_lt {i j k ni nj nk : ℕ}
    (hi : i < ni) (hj : j < nj) (hk : k < nk) :
    i + ni * (j + nj * k) < ni * nj * nk := by
  have hm : j + nj * k + 1 ≤ nj * nk := by
    have h1 : j + nj * k + 1 ≤ nj + nj * k := by omega
    have h2 : nj + nj * k = nj * (k + 1) := by ring
    have h3 : nj * (k + 1) ≤ nj * nk := Nat.mul_le_mul_left _ (by omega)
    omega
  have h4 : i + ni * (j + nj * k) + 1 ≤ ni * (j + nj * k) + ni := by omega
  have h5 : ni * (j + nj * k) + ni = ni * (j + nj * k + 1) := by ring
  have h6 : ni * (j + nj * k + 1) ≤ ni * (nj * nk) :=
    Nat.mul_le_mul_left _ hm
  have h7 : ni * (nj * nk) = ni * nj * nk := by ring
  omega

theorem buildField_getElem (f : ℕ → ℕ → ℕ → ℚ) {i j k ni nj nk : ℕ}
    (hi : i < ni) (hj : j < nj) (hk : k < nk) :
    (buildField f ni nj nk).a[i + ni * (j + nj * k)]? = some (f i j k) := by
  have hlt := trip_index_lt hi hj hk
  have hni : 0 < ni := by omega
  have hnj : 0 < nj := by omega
  have hmod : (i + ni * (j + nj * k)) % ni = i := by
    rw [Nat.add_mul_mod_self_left, Nat.mod_eq_of_lt hi]
  have hdiv : (i + ni * (j + nj * k)) / ni = j + nj * k := by
    rw [Nat.add_mul_div_left _ _ hni, Nat.div_eq_of_lt hi, Nat.zero_add]
  have hmod2 : (j + nj * k) % nj = j := by
    rw [Nat.add_mul_mod_self_left, Nat.mod_eq_of_lt hj]
  have hdiv2 : (j + nj * k) / nj = k := by
    rw [Nat.add_mul_div_left _ _ hnj, Nat.div_eq_of_lt hj, Nat.zero_add]
  simp only [buildField, List.getElem?_map, List.getElem?_range hlt,
    Option.map_some', hmod, hdiv, hmod2, hdiv2]

theorem parseFaceLine_three (w1 w2 w3 : String) :
    parseFaceLine [w1, w2, w3] =
      .ok [mkVec3ui (parseLeadingInt w1 - 1) (parseLeadingInt w2 - 1)
        (parseLeadingInt w3 - 1)] := rfl

theorem parseFaceLine_four (w1 w2 w3 w4 : String) :
    parseFaceLine [w1, w2, w3, w4] =
      .ok [mkVec3ui (parseLeadingInt w1 - 1) (parseLeadingInt w2 - 1)
        (parseLeadingInt w3 - 1),
        mkVec3ui (parseLeadingInt w3 - 1) (parseLeadingInt w4 - 1)
        (parseLeadingInt w1 - 1)] := rfl

theorem faceLoop_five_more (w1 w2 w3 w4 w5 : String) (rest : List String) :
    faceLoop (w1 :: w2 :: w3 :: w4 :: w5 :: rest) [0, 0, 0, 0] 0 =
      .error .oobStore := rfl

theorem parseFaceLine_five_more (w1 w2 w3 w4 w5 : String)
    (rest : List String) :
    parseFaceLine (w1 :: w2 :: w3 :: w4 :: w5 :: rest) =
      .error .oobStore := rfl

theorem u32_sub_one (n : ℤ) (h1 : 1 ≤ n) (h2 : n ≤ intMaxC) :
    u32 (n - 1) = (n - 1).toNat := by
  unfold u32
  rw [Int.emod_eq_of_lt (by omega) (by unfold intMaxC at h2; omega)]

theorem effPadding_eq_max (p : ℤ) : effPadding p = max p 1 := by
  unfold effPadding
  rcases lt_or_le p 1 with h | h
  · rw [if_pos h, max_eq_right (by omega)]
  · rw [if_neg (not_lt.mpr h), max_eq_left h]

theorem one_le_effPadding (p : ℤ) : 1 ≤ effPadding p := by
  unfold effPadding
  split <;> omega

theorem toDim_dim_eq (mn mx pq dx : ℚ) (hmm : mn ≤ mx) (hp : 0 ≤ pq)
    (hdx : 0 < dx) :
    ((toDim ((mx + pq * dx - (mn - pq * dx)) / dx) : ℕ) : ℤ) =
      ratTrunc ((mx - mn + 2 * pq * dx) / dx) := by
  have he : mx + pq * dx - (mn - pq * dx) = mx - mn + 2 * pq * dx := by ring
  rw [he]
  unfold toDim
  refine Int.toNat_of_nonneg (ratTrunc_nonneg (div_nonneg ?_ hdx.le))
  have h1 : (0 : ℚ) ≤ mx - mn := by linarith
  have h2 : (0 : ℚ) ≤ 2 * pq * dx := by positivity
  linarith

/-! ## The claims -/

/-- C1: for every invocation where the cell spacing `dx` is ≤ 0 or any grid
dimension `ni`/`nj`/`nk` is ≤ 0 (i.e. 0, as an `unsigned` dimension), the
builder refuses computation and signals the precondition violation instead
of producing a distance field. -/
theorem invalid_grid_spec_refused (core : Core) (faces : List Vec3ui)
    (verts : List Vec3f) (origin : Vec3f) (dx : ℚ) (ni nj nk : ℕ)
    (hbad : dx ≤ 0 ∨ ni = 0 ∨ nj = 0 ∨ nk = 0) :
    make_level_set3 core faces verts origin dx ni nj nk =
      .error .invalidGridSpec := by
  unfold make_level_set3
  rw [if_pos hbad]

/-- Witness for C1 at a concrete input: `dx = -1` is refused. -/
theorem invalid_grid_spec_refused_witness :
    ((-1 : ℚ) ≤ 0 ∨ (1 : ℕ) = 0 ∨ (1 : ℕ) = 0 ∨ (1 : ℕ) = 0) ∧
    make_level_set3 coreZero [] [] ⟨0, 0, 0⟩ (-1) 1 1 1 =
      .error .invalidGridSpec :=
  ⟨Or.inl (by norm_num),
    invalid_grid_spec_refused coreZero [] [] ⟨0, 0, 0⟩ (-1) 1 1 1
      (Or.inl (by norm_num))⟩

/-- C3: a face line with exactly 3 index tokens contributes the single
triangle `(a, b, c)`; one with exactly 4 index tokens `(a, b, c, d)`
contributes exactly the triangles `(a, b, c)` and `(c, d, a)`, in that
order; one with more than 4 index tokens makes the program terminate with
an error and contribute no face. -/
theorem face_line_tri_quad_split (w1 w2 w3 w4 w5 : String)
    (rest : List String) :
    parseFaceLine [w1, w2, w3] =
      .ok [mkVec3ui (parseLeadingInt w1 - 1) (parseLeadingInt w2 - 1)
        (parseLeadingInt w3 - 1)] ∧
    parseFaceLine [w1, w2, w3, w4] =
      .ok [mkVec3ui (parseLeadingInt w1 - 1) (parseLeadingInt w2 - 1)
        (parseLeadingInt w3 - 1),
        mkVec3ui (parseLeadingInt w3 - 1) (parseLeadingInt w4 - 1)
        (parseLeadingInt w1 - 1)] ∧
    parseFaceLine (w1 :: w2 :: w3 :: w4 :: w5 :: rest) =
      .error .oobStore :=
  ⟨parseFaceLine_three w1 w2 w3, parseFaceLine_four w1 w2 w3 w4,
    parseFaceLine_five_more w1 w2 w3 w4 w5 rest⟩

/-- C4: every face index parsed from the OBJ file (1-based) is decremented
by exactly 1 before being stored, so the stored index triples are 0-based:
for in-range 1-based indices the stored `unsigned` components are exactly
the parsed values minus one. -/
theorem face_indices_zero_based (w1 w2 w3 w4 : String)
    (h1 : 1 ≤ parseLeadingInt w1) (h2 : 1 ≤ parseLeadingInt w2)
    (h3 : 1 ≤ parseLeadingInt w3) (h4 : 1 ≤ parseLeadingInt w4) :
    parseFaceLine [w1, w2, w3] =
      .ok [⟨(parseLeadingInt w1 - 1).toNat, (parseLeadingInt w2 - 1).toNat,
        (parseLeadingInt w3 - 1).toNat⟩] ∧
    parseFaceLine [w1, w2, w3, w4] =
      .ok [⟨(parseLeadingInt w1 - 1).toNat, (parseLeadingInt w2 - 1).toNat,
        (parseLeadingInt w3 - 1).toNat⟩,
        ⟨(parseLeadingInt w3 - 1).toNat, (parseLeadingInt w4 - 1).toNat,
        (parseLeadingInt w1 - 1).toNat⟩] ∧
    ((parseLeadingInt w1 - 1).toNat : ℤ) = parseLeadingInt w1 - 1 ∧
    ((parseLeadingInt w2 - 1).toNat : ℤ) = parseLeadingInt w2 - 1 ∧
    ((parseLeadingInt w3 - 1).toNat : ℤ) = parseLeadingInt w3 - 1 ∧
    ((parseLeadingInt w4 - 1).toNat : ℤ) = parseLeadingInt w4 - 1 := by
  have e1 := u32_sub_one _ h1 (parseLeadingInt_bounds w1).2
  have e2 := u32_sub_one _ h2 (parseLeadingInt_bounds w2).2
  have e3 := u32_sub_one _ h3 (parseLeadingInt_bounds w3).2
  have e4 := u32_sub_one _ h4 (parseLeadingInt_bounds w4).2
  refine ⟨?_, ?_, Int.toNat_of_nonneg (by omega),
    Int.toNat_of_nonneg (by omega), Int.toNat_of_nonneg (by omega),
    Int.toNat_of_nonneg (by omega)⟩
  · rw [parseFaceLine_three]
    unfold mkVec3ui
    rw [e1, e2, e3]
  · rw [parseFaceLine_four]
    unfold mkVec3ui
    rw [e1, e2, e3, e4]

/-- Witness for C4 at the face line `f 2 3 4 5`. -/
theorem face_indices_zero_based_witness :
    (1 ≤ parseLeadingInt "2" ∧ 1 ≤ parseLeadingInt "3" ∧
      1 ≤ parseLeadingInt "4" ∧ 1 ≤ parseLeadingInt "5") ∧
    (parseFaceLine ["2", "3", "4"] =
      .ok [⟨(parseLeadingInt "2" - 1).toNat, (parseLeadingInt "3" - 1).toNat,
        (parseLeadingInt "4" - 1).toNat⟩] ∧
    parseFaceLine ["2", "3", "4", "5"] =
      .ok [⟨(parseLeadingInt "2" - 1).toNat, (parseLeadingInt "3" - 1).toNat,
        (parseLeadingInt "4" - 1).toNat⟩,
        ⟨(parseLeadingInt "4" - 1).toNat, (parseLeadingInt "5" - 1).toNat,
        (parseLeadingInt "2" - 1).toNat⟩] ∧
    ((parseLeadingInt "2" - 1).toNat : ℤ) = parseLeadingInt "2" - 1 ∧
    ((parseLeadingInt "3" - 1).toNat : ℤ) = parseLeadingInt "3" - 1 ∧
    ((parseLeadingInt "4" - 1).toNat : ℤ) = parseLeadingInt "4" - 1 ∧
    ((parseLeadingInt "5" - 1).toNat : ℤ) = parseLeadingInt "5" - 1) :=
  ⟨⟨by decide, by decide, by decide, by decide⟩,
    face_indices_zero_based "2" "3" "4" "5" (by decide) (by decide)
      (by decide) (by decide)⟩

/-- C6: the padding actually used to expand the bounding box is
`max(p, 1)`: values below 1 are replaced by 1 rather than rejected, and the
grid derivation behaves exactly as with padding `max(p, 1)`. -/
theorem padding_clamped_to_min_one (p : ℤ) (minB maxB : Vec3f) (dx : ℚ) :
    effPadding p = max p 1 ∧
    deriveGrid minB maxB dx p = deriveGrid minB maxB dx (max p 1) := by
  have h2 : effPadding (max p 1) = max p 1 := by
    unfold effPadding
    rw [if_neg (not_lt.mpr (le_max_right p 1))]
  refine ⟨effPadding_eq_max p, ?_⟩
  simp only [deriveGrid, effPadding_eq_max p, h2]

/-- C8: on a face line with five or more index tokens, the loop stores the
fifth parsed index at position 4 of the four-element buffer before the
`idx > 4` check can fire: in the total embedding that store is out of
bounds (`setAt` returns `none` at index 4 of any length-4 buffer), so the
loop's outcome is the invalid-write error `oobStore`, never the
`tooMany` exit. -/
theorem fifth_index_oob_store (w1 w2 w3 w4 w5 : String) (rest : List String)
    (buf : List ℤ) (v : ℤ) (hbuf : buf.length = 4) :
    setAt buf 4 v = none ∧
    faceLoop (w1 :: w2 :: w3 :: w4 :: w5 :: rest) [0, 0, 0, 0] 0 =
      .error .oobStore ∧
    parseFaceLine (w1 :: w2 :: w3 :: w4 :: w5 :: rest) =
      .error .oobStore := by
  refine ⟨?_, faceLoop_five_more w1 w2 w3 w4 w5 rest,
    parseFaceLine_five_more w1 w2 w3 w4 w5 rest⟩
  unfold setAt
  rw [hbuf, if_neg (by omega)]

/-- Witness for C8 on the face line `f 1 2 3 4 5`. -/
theorem fifth_index_oob_store_witness :
    ([(0 : ℤ), 0, 0, 0].length = 4) ∧
    (setAt [(0 : ℤ), 0, 0, 0] 4 9 = none ∧
    faceLoop ["1", "2", "3", "4", "5"] [0, 0, 0, 0] 0 = .error .oobStore ∧
    parseFaceLine ["1", "2", "3", "4", "5"] = .error .oobStore) :=
  ⟨rfl, fifth_index_oob_store "1" "2" "3" "4" "5" [] [0, 0, 0, 0] 9 rfl⟩

/-- C5: for every successful builder run, the serialized record carries the
grid dimensions `ni`, `nj`, `nk`, the grid origin, the spacing `dx`, and
all `ni·nj·nk` field values, laid out with index `i` varying fastest, then
`j`, then `k`: position `i + ni·(j + nj·k)` holds the value at
`(i, j, k)`. -/
theorem record_layout (core : Core) (faces : List Vec3ui)
    (verts : List Vec3f) (origin : Vec3f) (dx : ℚ) (ni nj nk i j k : ℕ)
    (phi : Array3f)
    (hok : make_level_set3 core faces verts origin dx ni nj nk = .ok phi)
    (hi : i < ni) (hj : j < nj) (hk : k < nk) :
    (writeRecord phi origin dx).ni = ni ∧
    (writeRecord phi origin dx).nj = nj ∧
    (writeRecord phi origin dx).nk = nk ∧
    (writeRecord phi origin dx).origin = origin ∧
    (writeRecord phi origin dx).dx = dx ∧
    (writeRecord phi origin dx).values.length = ni * nj * nk ∧
    (writeRecord phi origin dx).values[i + ni * (j + nj * k)]? =
      some (core faces verts origin dx ni nj nk i j k) := by
  unfold make_level_set3 at hok
  split at hok
  · cases hok
  · have hphi : phi =
        buildField (core faces verts origin dx ni nj nk) ni nj nk :=
      (Except.ok.inj hok).symm
    subst hphi
    refine ⟨rfl, rfl, rfl, rfl, rfl, ?_, ?_⟩
    · simp [writeRecord, buildField]
    · exact buildField_getElem _ hi hj hk

/-- Witness for C5 on a 1×1×1 grid. -/
theorem record_layout_witness :
    (make_level_set3 coreZero [] [] ⟨0, 0, 0⟩ 1 1 1 1 =
      .ok (buildField (coreZero [] [] ⟨0, 0, 0⟩ 1 1 1 1) 1 1 1) ∧
      (0 : ℕ) < 1) ∧
    ((writeRecord (buildField (coreZero [] [] ⟨0, 0, 0⟩ 1 1 1 1) 1 1 1)
        ⟨0, 0, 0⟩ 1).ni = 1 ∧
    (writeRecord (buildField (coreZero [] [] ⟨0, 0, 0⟩ 1 1 1 1) 1 1 1)
        ⟨0, 0, 0⟩ 1).nj = 1 ∧
    (writeRecord (buildField (coreZero [] [] ⟨0, 0, 0⟩ 1 1 1 1) 1 1 1)
        ⟨0, 0, 0⟩ 1).nk = 1 ∧
    (writeRecord (buildField (coreZero [] [] ⟨0, 0, 0⟩ 1 1 1 1) 1 1 1)
        ⟨0, 0, 0⟩ 1).origin = ⟨0, 0, 0⟩ ∧
    (writeRecord (buildField (coreZero [] [] ⟨0, 0, 0⟩ 1 1 1 1) 1 1 1)
        ⟨0, 0, 0⟩ 1).dx = 1 ∧
    (writeRecord (buildField (coreZero [] [] ⟨0, 0, 0⟩ 1 1 1 1) 1 1 1)
        ⟨0, 0, 0⟩ 1).values.length = 1 * 1 * 1 ∧
    (writeRecord (buildField (coreZero [] [] ⟨0, 0, 0⟩ 1 1 1 1) 1 1 1)
        ⟨0, 0, 0⟩ 1).values[0 + 1 * (0 + 1 * 0)]? =
      some (coreZero [] [] ⟨0, 0, 0⟩ 1 1 1 1 0 0 0)) :=
  ⟨⟨rfl, by decide⟩,
    record_layout coreZero [] [] ⟨0, 0, 0⟩ 1 1 1 1 0 0 0 _ rfl
      (by decide) (by decide) (by decide)⟩

/-- C7: the pipeline is a deterministic function of its input: any two runs
of the big-step run relation on the same input produce the same outcome,
bit for bit. -/
theorem pipeline_deterministic (core : Core) (ls : List Line) (dx : ℚ)
    (padding : ℤ) (r1 r2 : Except RunErr SDFRecord)
    (h1 : RunsTo core ls dx padding r1) (h2 : RunsTo core ls dx padding r2) :
    r1 = r2 := by
  cases h1 with
  | parseFail e he =>
    cases h2 with
    | parseFail e2 he2 =>
      have h := Except.error.inj (he.symm.trans he2)
      subst h; rfl
    | builderFail st2 e2 hs2 hm2 => cases he.symm.trans hs2
    | success st2 phi2 hs2 hm2 => cases he.symm.trans hs2
  | builderFail st e hs hm =>
    cases h2 with
    | parseFail e2 he2 => cases hs.symm.trans he2
    | builderFail st2 e2 hs2 hm2 =>
      have h := Except.ok.inj (hs.symm.trans hs2)
      subst h
      have h := Except.error.inj (hm.symm.trans hm2)
      subst h; rfl
    | success st2 phi2 hs2 hm2 =>
      have h := Except.ok.inj (hs.symm.trans hs2)
      subst h
      cases hm.symm.trans hm2
  | success st phi hs hm =>
    cases h2 with
    | parseFail e2 he2 => cases hs.symm.trans he2
    | builderFail st2 e2 hs2 hm2 =>
      have h := Except.ok.inj (hs.symm.trans hs2)
      subst h
      cases hm.symm.trans hm2
    | success st2 phi2 hs2 hm2 =>
      have h := Except.ok.inj (hs.symm.trans hs2)
      subst h
      have h := Except.ok.inj (hm.symm.trans hm2)
      subst h; rfl

/-- Witness for C7: two runs on the empty OBJ input with `dx = -1` both
produce the builder's refusal, and the theorem equates them. -/
theorem pipeline_deterministic_witness :
    RunsTo coreZero [] (-1) 1 (.error (.builder .invalidGridSpec)) ∧
    ((.error (.builder .invalidGridSpec) : Except RunErr SDFRecord) =
      .error (.builder .invalidGridSpec)) := by
  have h : RunsTo coreZero [] (-1) 1 (.error (.builder .invalidGridSpec)) :=
    RunsTo.builderFail initState .invalidGridSpec rfl
      (by unfold make_level_set3; rw [if_pos (Or.inl (by norm_num))])
  exact ⟨h, pipeline_deterministic coreZero [] (-1) 1 _ _ h h⟩

/-- C9: an input with zero vertex lines raises no error: the bounding box
keeps its inverted sentinel (`+FLT_MAX` minima, `-FLT_MAX` maxima), and the
padded box — hence the grid origin and dimensions — is computed from those
sentinel values; no ≥1-vertex precondition is ever checked. -/
theorem no_vertex_lines_unchecked (ls : List Line) (dx : ℚ) (padding : ℤ)
    (st : ParseState)
    (hnv : ls.all (fun l => !(isVline l)) = true)
    (hrun : runParse ls = .ok st) :
    st.verts = [] ∧ st.minB = vecFltMax ∧ st.maxB = vecNegFltMax ∧
    (deriveGrid st.minB st.maxB dx padding).origin =
      ⟨fltMax - (effPadding padding : ℤ) * dx,
       fltMax - (effPadding padding : ℤ) * dx,
       fltMax - (effPadding padding : ℤ) * dx⟩ ∧
    (deriveGrid st.minB st.maxB dx padding).corner =
      ⟨-fltMax + (effPadding padding : ℤ) * dx,
       -fltMax + (effPadding padding : ℤ) * dx,
       -fltMax + (effPadding padding : ℤ) * dx⟩ := by
  have hnv' : ∀ l ∈ ls, isVline l = false := by
    intro l hl
    have h := List.all_eq_true.mp hnv l hl
    simpa using h
  obtain ⟨hv, hmin, hmax⟩ := runParseFrom_noVline hnv' hrun
  have hv' : st.verts = [] := hv
  have hmin' : st.minB = vecFltMax := hmin
  have hmax' : st.maxB = vecNegFltMax := hmax
  refine ⟨hv', hmin', hmax', ?_, ?_⟩
  · rw [hmin']; rfl
  · rw [hmax']; rfl

/-- Witness for C9 on an input consisting of one ignored line. -/
theorem no_vertex_lines_unchecked_witness :
    ([Line.other].all (fun l => !(isVline l)) = true ∧
      runParse [Line.other] = .ok ⟨[], [], vecFltMax, vecNegFltMax, 1⟩) ∧
    ((⟨[], [], vecFltMax, vecNegFltMax, 1⟩ : ParseState).verts = [] ∧
    (⟨[], [], vecFltMax, vecNegFltMax, 1⟩ : ParseState).minB = vecFltMax ∧
    (⟨[], [], vecFltMax, vecNegFltMax, 1⟩ : ParseState).maxB = vecNegFltMax ∧
    (deriveGrid (⟨[], [], vecFltMax, vecNegFltMax, 1⟩ : ParseState).minB
        (⟨[], [], vecFltMax, vecNegFltMax, 1⟩ : ParseState).maxB 1 1).origin =
      ⟨fltMax - (effPadding 1 : ℤ) * 1, fltMax - (effPadding 1 : ℤ) * 1,
        fltMax - (effPadding 1 : ℤ) * 1⟩ ∧
    (deriveGrid (⟨[], [], vecFltMax, vecNegFltMax, 1⟩ : ParseState).minB
        (⟨[], [], vecFltMax, vecNegFltMax, 1⟩ : ParseState).maxB 1 1).corner =
      ⟨-fltMax + (effPadding 1 : ℤ) * 1, -fltMax + (effPadding 1 : ℤ) * 1,
        -fltMax + (effPadding 1 : ℤ) * 1⟩) :=
  ⟨⟨rfl, rfl⟩,
    no_vertex_lines_unchecked [Line.other] 1 1
      ⟨[], [], vecFltMax, vecNegFltMax, 1⟩ rfl rfl⟩

/-- C10: on a face-line token of the slash-separated OBJ form (such as
`7/2/3`), only the leading integer before the first slash is parsed and
used as the vertex index; the characters after the slash are discarded. -/
theorem face_token_leading_int (d : Char) (ds rest : List Char)
    (hd : (d :: ds).all Char.isDigit = true) :
    parseLeadingInt (String.mk (d :: ds ++ '/' :: rest)) =
      parseLeadingInt (String.mk (d :: ds)) ∧
    parseLeadingInt (String.mk (d :: ds)) =
      clampInt (digitsToNat (d :: ds)) := by
  have hall : ∀ c ∈ d :: ds, Char.isDigit c = true := by
    intro c hc
    exact List.all_eq_true.mp hd c hc
  have hdd : d.isDigit = true := hall d (List.mem_cons_self d ds)
  have hdm : ¬ d = '-' := by
    intro h
    rw [h] at hdd
    cases hdd
  have hdp : ¬ d = '+' := by
    intro h
    rw [h] at hdd
    cases hdd
  have hslash : Char.isDigit '/' = false := by decide
  have hself : (d :: ds).takeWhile Char.isDigit = d :: ds :=
    takeWhile_of_all Char.isDigit (d :: ds) hall
  have happ : ((d :: ds) ++ '/' :: rest).takeWhile Char.isDigit = d :: ds :=
    takeWhile_of_all_append Char.isDigit '/' rest hslash (d :: ds) hall
  have e1 : parseLeadingInt (String.mk (d :: ds ++ '/' :: rest)) =
      parseLeadingIntL (d :: (ds ++ '/' :: rest)) := rfl
  have e2 : parseLeadingInt (String.mk (d :: ds)) =
      parseLeadingIntL (d :: ds) := rfl
  have happ' : List.takeWhile Char.isDigit (d :: (ds ++ '/' :: rest)) =
      d :: ds := happ
  have e3 : parseLeadingIntL (d :: (ds ++ '/' :: rest)) =
      clampInt (digitsToNat (d :: ds)) := by
    simp only [parseLeadingIntL]
    rw [if_neg hdm, if_neg hdp, happ', if_neg (by simp)]
  have e4 : parseLeadingIntL (d :: ds) = clampInt (digitsToNat (d :: ds)) := by
    simp only [parseLeadingIntL]
    rw [if_neg hdm, if_neg hdp, hself, if_neg (by simp)]
  exact ⟨by rw [e1, e2, e3, e4], by rw [e2, e4]⟩

/-- Witness for C10 on the token `7/2/3`. -/
theorem face_token_leading_int_witness :
    (['7'].all Char.isDigit = true) ∧
    (parseLeadingInt (String.mk (['7'] ++ '/' :: ['2', '/', '3'])) =
      parseLeadingInt (String.mk ['7']) ∧
    parseLeadingInt (String.mk ['7']) = clampInt (digitsToNat ['7'])) :=
  ⟨by decide, face_token_leading_int '7' [] ['2', '/', '3'] (by decide)⟩

/-- C2: for every input with at least one vertex (all coordinates
representable floats) and positive spacing, the derived grid origin is the
componentwise minimum of the parsed vertex positions minus `p·dx` in each
axis (`p` the effective padding), and each grid dimension is the integer
truncation of `(componentwise max − componentwise min + 2·p·dx)/dx`. -/
theorem grid_from_bbox (ls : List Line) (dx : ℚ) (padding : ℤ)
    (st : ParseState)
    (hrun : runParse ls = .ok st)
    (hne : st.verts ≠ [])
    (hrange : st.verts.all vecInFloatRange = true)
    (hdx : 0 < dx) :
    isMinOf st.minB.x (st.verts.map Vec3f.x) ∧
    isMinOf st.minB.y (st.verts.map Vec3f.y) ∧
    isMinOf st.minB.z (st.verts.map Vec3f.z) ∧
    isMaxOf st.maxB.x (st.verts.map Vec3f.x) ∧
    isMaxOf st.maxB.y (st.verts.map Vec3f.y) ∧
    isMaxOf st.maxB.z (st.verts.map Vec3f.z) ∧
    (deriveGrid st.minB st.maxB dx padding).origin =
      ⟨st.minB.x - ((effPadding padding : ℤ) : ℚ) * dx,
       st.minB.y - ((effPadding padding : ℤ) : ℚ) * dx,
       st.minB.z - ((effPadding padding : ℤ) : ℚ) * dx⟩ ∧
    ((deriveGrid st.minB st.maxB dx padding).ni : ℤ) =
      ratTrunc ((st.maxB.x - st.minB.x +
        2 * ((effPadding padding : ℤ) : ℚ) * dx) / dx) ∧
    ((deriveGrid st.minB st.maxB dx padding).nj : ℤ) =
      ratTrunc ((st.maxB.y - st.minB.y +
        2 * ((effPadding padding : ℤ) : ℚ) * dx) / dx) ∧
    ((deriveGrid st.minB st.maxB dx padding).nk : ℤ) =
      ratTrunc ((st.maxB.z - st.minB.z +
        2 * ((effPadding padding : ℤ) : ℚ) * dx) / dx) := by
  obtain ⟨i1, i2, i3, i4, i5, i6⟩ := runParse_bboxInv hrun
  obtain ⟨v, vs, hv⟩ := List.exists_cons_of_ne_nil hne
  have hrange' : ∀ u ∈ st.verts,
      -fltMax ≤ u.x ∧ u.x ≤ fltMax ∧ -fltMax ≤ u.y ∧ u.y ≤ fltMax ∧
      -fltMax ≤ u.z ∧ u.z ≤ fltMax := by
    intro u hu
    exact of_decide_eq_true (List.all_eq_true.mp hrange u hu)
  have hmapx : st.verts.map Vec3f.x = v.x :: vs.map Vec3f.x := by
    rw [hv]; rfl
  have hmapy : st.verts.map Vec3f.y = v.y :: vs.map Vec3f.y := by
    rw [hv]; rfl
  have hmapz : st.verts.map Vec3f.z = v.z :: vs.map Vec3f.z := by
    rw [hv]; rfl
  have hminx : isMinOf st.minB.x (st.verts.map Vec3f.x) := by
    rw [i1, hmapx]
    refine sentinel_foldl_isMin fltMax v.x (vs.map Vec3f.x) ?_
    intro q hq
    rw [← hmapx] at hq
    obtain ⟨u, hu, hqu⟩ := List.mem_map.mp hq
    rw [← hqu]
    exact (hrange' u hu).2.1
  have hminy : isMinOf st.minB.y (st.verts.map Vec3f.y) := by
    rw [i2, hmapy]
    refine sentinel_foldl_isMin fltMax v.y (vs.map Vec3f.y) ?_
    intro q hq
    rw [← hmapy] at hq
    obtain ⟨u, hu, hqu⟩ := List.mem_map.mp hq
    rw [← hqu]
    exact (hrange' u hu).2.2.2.1
  have hminz : isMinOf st.minB.z (st.verts.map Vec3f.z) := by
    rw [i3, hmapz]
    refine sentinel_foldl_isMin fltMax v.z (vs.map Vec3f.z) ?_
    intro q hq
    rw [← hmapz] at hq
    obtain ⟨u, hu, hqu⟩ := List.mem_map.mp hq
    rw [← hqu]
    exact (hrange' u hu).2.2.2.2.2
  have hmaxx : isMaxOf st.maxB.x (st.verts.map Vec3f.x) := by
    rw [i4, hmapx]
    refine sentinel_foldl_isMax (-fltMax) v.x (vs.map Vec3f.x) ?_
    intro q hq
    rw [← hmapx] at hq
    obtain ⟨u, hu, hqu⟩ := List.mem_map.mp hq
    rw [← hqu]
    exact (hrange' u hu).1
  have hmaxy : isMaxOf st.maxB.y (st.verts.map Vec3f.y) := by
    rw [i5, hmapy]
    refine sentinel_foldl_isMax (-fltMax) v.y (vs.map Vec3f.y) ?_
    intro q hq
    rw [← hmapy] at hq
    obtain ⟨u, hu, hqu⟩ := List.mem_map.mp hq
    rw [← hqu]
    exact (hrange' u hu).2.2.1
  have hmaxz : isMaxOf st.maxB.z (st.verts.map Vec3f.z) := by
    rw [i6, hmapz]
    refine sentinel_foldl_isMax (-fltMax) v.z (vs.map Vec3f.z) ?_
    intro q hq
    rw [← hmapz] at hq
    obtain ⟨u, hu, hqu⟩ := List.mem_map.mp hq
    rw [← hqu]
    exact (hrange' u hu).2.2.2.2.1
  have hp : (0 : ℚ) ≤ ((effPadding padding : ℤ) : ℚ) := by
    have h1 := one_le_effPadding padding
    have h2 : (1 : ℚ) ≤ ((effPadding padding : ℤ) : ℚ) := by
      exact_mod_cast h1
    linarith
  have hvx : v.x ∈ st.verts.map Vec3f.x := by
    rw [hmapx]; exact List.mem_cons_self _ _
  have hvy : v.y ∈ st.verts.map Vec3f.y := by
    rw [hmapy]; exact List.mem_cons_self _ _
  have hvz : v.z ∈ st.verts.map Vec3f.z := by
    rw [hmapz]; exact List.mem_cons_self _ _
  have hmmx : st.minB.x ≤ st.maxB.x :=
    le_trans (hminx.2 v.x hvx) (hmaxx.2 v.x hvx)
  have hmmy : st.minB.y ≤ st.maxB.y :=
    le_trans (hminy.2 v.y hvy) (hmaxy.2 v.y hvy)
  have hmmz : st.minB.z ≤ st.maxB.z :=
    le_trans (hminz.2 v.z hvz) (hmaxz.2 v.z hvz)
  refine ⟨hminx, hminy, hminz, hmaxx, hmaxy, hmaxz, rfl, ?_, ?_, ?_⟩
  · exact toDim_dim_eq st.minB.x st.maxB.x _ dx hmmx hp hdx
  · exact toDim_dim_eq st.minB.y st.maxB.y _ dx hmmy hp hdx
  · exact toDim_dim_eq st.minB.z st.maxB.z _ dx hmmz hp hdx

/-- Witness for C2 on the one-vertex input `v 0 0 0` with `dx = 1`,
`padding = 1`. -/
theorem grid_from_bbox_witness :
    (runParse [Line.vline 0 0 0] =
      .ok ⟨[⟨0, 0, 0⟩], [], ⟨0, 0, 0⟩, ⟨0, 0, 0⟩, 0⟩ ∧
      ([(⟨0, 0, 0⟩ : Vec3f)] : List Vec3f) ≠ [] ∧
      ([(⟨0, 0, 0⟩ : Vec3f)] : List Vec3f).all vecInFloatRange = true ∧
      (0 : ℚ) < 1) ∧
    (isMinOf 0 [0] ∧ isMinOf 0 [0] ∧ isMinOf 0 [0] ∧
    isMaxOf 0 [0] ∧ isMaxOf 0 [0] ∧ isMaxOf 0 [0] ∧
    (deriveGrid ⟨0, 0, 0⟩ ⟨0, 0, 0⟩ 1 1).origin =
      ⟨0 - ((effPadding 1 : ℤ) : ℚ) * 1, 0 - ((effPadding 1 : ℤ) : ℚ) * 1,
       0 - ((effPadding 1 : ℤ) : ℚ) * 1⟩ ∧
    ((deriveGrid ⟨0, 0, 0⟩ ⟨0, 0, 0⟩ 1 1).ni : ℤ) =
      ratTrunc ((0 - 0 + 2 * ((effPadding 1 : ℤ) : ℚ) * 1) / 1) ∧
    ((deriveGrid ⟨0, 0, 0⟩ ⟨0, 0, 0⟩ 1 1).nj : ℤ) =
      ratTrunc ((0 - 0 + 2 * ((effPadding 1 : ℤ) : ℚ) * 1) / 1) ∧
    ((deriveGrid ⟨0, 0, 0⟩ ⟨0, 0, 0⟩ 1 1).nk : ℤ) =
      ratTrunc ((0 - 0 + 2 * ((effPadding 1 : ℤ) : ℚ) * 1) / 1)) := by
  have hrun : runParse [Line.vline 0 0 0] =
      .ok ⟨[⟨0, 0, 0⟩], [], ⟨0, 0, 0⟩, ⟨0, 0, 0⟩, 0⟩ := by
    simp [runParse, runParseFrom, processLine, update_minmax, initState,
      vecFltMax, vecNegFltMax]
    norm_num [fltMax]
  have hall : ([(⟨0, 0, 0⟩ : Vec3f)] : List Vec3f).all vecInFloatRange =
      true := by
    simp [vecInFloatRange]
    norm_num [fltMax]
  exact ⟨⟨hrun, List.cons_ne_nil _ _, hall, by norm_num⟩,
    grid_from_bbox [Line.vline 0 0 0] 1 1
      ⟨[⟨0, 0, 0⟩], [], ⟨0, 0, 0⟩, ⟨0, 0, 0⟩, 0⟩ hrun
      (List.cons_ne_nil _ _) hall (by norm_num)⟩

end SDFGen
